import Mathlib

/-!
Verification development for the Lab Co-Pilot repository: a shallow
embedding of the frontend sources (types.ts, DataUploader.tsx, the main
dashboard page) and of the backend agent core (TabularStore, Sandbox,
ToolRegistry, Orchestrator, ConversationSession).  The backend service
files are not part of the shipped sources, so those components are
modelled from the specification, as indicated on each definition.
-/

namespace LabCoPilot

/-! ## Frontend data model, from frontend/src/lib/types.ts -/

/-- Embeds the TypeScript interface ColumnInfo from types.ts.  The TS
fields min, max, mean have type number or null; numbers are modelled as
rationals.  The field sample_values holds opaque values, modelled as
strings. -/
structure ColumnInfo where
  name : String
  dtype : String
  null_count : Nat
  unique_count : Nat
  sample_values : List String
  min : Option Rat := none
  max : Option Rat := none
  mean : Option Rat := none
deriving DecidableEq

/-- Embeds the TypeScript interface UploadedFileInfo from types.ts.
The preview field holds records of opaque values, modelled as
association lists of strings. -/
structure UploadedFileInfo where
  file_id : String
  filename : String
  columns : List String
  column_info : List ColumnInfo
  row_count : Nat
  preview : List (List (String × String))
deriving DecidableEq

/-- Embeds the TypeScript interface UploadDataResponse from types.ts. -/
structure UploadDataResponse where
  files : List UploadedFileInfo
  file_type : String
  total_files : Nat
deriving DecidableEq

/-- Embeds the TypeScript interface DatasetMeta from types.ts. -/
structure DatasetMeta where
  file_id : String
  filename : String
  columns : List String
  row_count : Nat
deriving DecidableEq

/-- Embeds the role union of the TypeScript interface ChatMessage from
types.ts: role is the string union of user and assistant. -/
inductive ChatRole
  | user
  | assistant
deriving DecidableEq

/-- Embeds the TypeScript interface ChatMessage from types.ts. -/
structure ChatMessage where
  role : ChatRole
  content : String
  plot_json : Option String := none
  table_data : Option (List (List (String × String))) := none
  table_columns : Option (List String) := none
deriving DecidableEq

/-! ## Dashboard page (src/unnamed/part_000, the Home component) -/

/-- Embeds the initial-load mapping inside the useEffect of Home: each
DatasetMeta from the list endpoint becomes an UploadedFileInfo with
empty column_info and empty preview. -/
def initialDatasets (ds : List DatasetMeta) : List UploadedFileInfo :=
  ds.map fun d =>
    { file_id := d.file_id
      filename := d.filename
      columns := d.columns
      column_info := []
      row_count := d.row_count
      preview := [] }

/-- Embeds handleDataUpload of the Home component: previous entries
whose file_id occurs among the uploaded files are dropped, then the
uploaded files are appended.  The JS Set membership test is modelled by
list membership over the mapped ids. -/
def handleDataUpload (data : UploadDataResponse)
    (prev : List UploadedFileInfo) : List UploadedFileInfo :=
  let newIds := data.files.map (fun f => f.file_id)
  prev.filter (fun d => !(newIds.contains d.file_id)) ++ data.files

/-- Embeds the top-bar label expression of the Home component: with a
non-empty dataset list it shows Active followed by the filename of the
element at index length minus one, otherwise the no-dataset text. -/
def activeLabel (datasets : List UploadedFileInfo) : String :=
  if datasets.length > 0 then
    "Active: " ++ (((datasets.get? (datasets.length - 1)).map
      (fun d => d.filename)).getD "")
  else
    "No dataset loaded"

/-! ## DataUploader (frontend/src/components/DataUploader.tsx) -/

/-- Models the JavaScript error value inspected by the catch block of
onDrop in DataUploader.tsx.  The axios constructor covers any object
with a response key (optional detail string, optional numeric status);
jsError covers instances of Error with their message; other covers
every remaining value. -/
inductive UploadErr
  | axios (detail : Option String) (status : Option Nat)
  | jsError (message : String)
  | other
deriving DecidableEq

/-- Embeds the server-error fallback template of onDrop; a missing
status renders as the string undefined, as JS template interpolation
does. -/
def serverErrorText (status : Option Nat) : String :=
  match status with
  | some s => "Server error (" ++ toString s ++ ")"
  | none => "Server error (undefined)"

/-- Embeds the message computation in the catch block of onDrop.  The
JS expression detail || template treats the empty string as falsy, so
an empty detail also falls through to the server-error template. -/
def uploadErrorMessage : UploadErr → String
  | .axios detail status =>
      match detail with
      | some d => if d = "" then serverErrorText status else d
      | none => serverErrorText status
  | .jsError m => m
  | .other => "Upload failed"

/-- Embeds the success message template of onDrop. -/
def uploadSuccessText (d : UploadDataResponse) : String :=
  "✓ Loaded " ++ toString d.total_files ++ " file" ++
    (if d.total_files > 1 then "s" else "") ++
    " (" ++ d.file_type.toUpper ++ ")"

/-- Outcome of the awaited uploadData call inside onDrop. -/
inductive UploadOutcome
  | success (resp : UploadDataResponse)
  | failure (e : UploadErr)
deriving DecidableEq

/-- Component state set by onDrop: loading flag, success message and
error message, mirroring the three useState hooks of DataUploader. -/
structure UploaderState where
  loading : Bool
  successMsg : Option String
  error : Option String
deriving DecidableEq

/-- Embeds onDrop of DataUploader.tsx as a function of the dropped file
names and the outcome of the upload call: an empty file list returns
early leaving the initial state; otherwise the try branch sets the
success message and the catch branch sets the error message, and the
finally branch clears loading in every case. -/
def onDropResult (files : List String) (outcome : UploadOutcome) :
    UploaderState :=
  match files with
  | [] => { loading := false, successMsg := none, error := none }
  | _ :: _ =>
      match outcome with
      | .success d =>
          { loading := false
            successMsg := some (uploadSuccessText d)
            error := none }
      | .failure e =>
          { loading := false
            successMsg := none
            error := some (uploadErrorMessage e) }

/-- Restates, following the words of the spec sentence behind claim C8,
the three listed message forms: the server detail string, a
server-status description, or the own message of the error.  Used to
compare the claimed forms with the embedded message computation. -/
def claimedMessageForm : UploadErr → String → Bool
  | .axios (some d) st, m => (d ≠ "" && m = d) || m = serverErrorText st
  | .axios none st, m => m = serverErrorText st
  | .jsError s, m => m = s
  | .other, _ => false

/-! ## Backend error taxonomy (spec section 7) -/

/-- Modelled from the spec: the error taxonomy of section 7, shared by
TabularStore, Sandbox, ToolRegistry and Orchestrator.  The backend
service files are not part of the shipped sources. -/
inductive ErrKind
  | NotFound
  | SchemaError
  | ValidationError
  | UnknownTool
  | Timeout
  | ResourceExceeded
  | RuntimeFault
  | TransportFailure
  | StepLimitExceeded
deriving DecidableEq

/-! ## TabularStore (spec section 4.1; backend store and data engine are
not in the shipped sources, so the component is modelled from the
spec) -/

/-- Modelled from the spec: a tabular cell value.  The data engine is
pandas-based; cell scalars are modelled as integers or strings, with an
explicit null. -/
inductive Value
  | int (i : Int)
  | str (s : String)
  | null
deriving DecidableEq

/-- A row is an association list from column name to cell value. -/
def Row : Type := List (String × Value)

instance : DecidableEq Row := by
  unfold Row
  infer_instance

/-- Looks a column up in a row. -/
def rowGet (r : Row) (c : String) : Option Value :=
  (r.find? (fun p => p.1 = c)).map (fun p => p.2)

/-- Modelled from the spec: the Dataset record of section 3 — id, name,
ordered schema of column name and inferred type, and the row payload.
Row count and column statistics are derived from the rows. -/
structure Dataset where
  id : String
  name : String
  schema : List (String × String)
  rows : List Row
deriving DecidableEq

/-- Modelled from the spec: comparison operators of the closed filter
predicate grammar of section 4.1. -/
inductive CmpOp
  | ceq
  | cne
  | clt
  | cle
  | cgt
  | cge
deriving DecidableEq

/-- Modelled from the spec: literals of the filter predicate grammar. -/
inductive Lit
  | li (n : Int)
  | ls (s : String)
deriving DecidableEq

/-- Modelled from the spec: the small boolean-expression grammar of
section 4.1 — column, comparison operator, literal, combined with AND
and OR. -/
inductive Pred
  | cmp (col : String) (op : CmpOp) (l : Lit)
  | pand (p q : Pred)
  | por (p q : Pred)
deriving DecidableEq

/-- Integer comparison for the predicate grammar. -/
def cmpInt (op : CmpOp) (a b : Int) : Bool :=
  match op with
  | .ceq => a = b
  | .cne => a ≠ b
  | .clt => a < b
  | .cle => a ≤ b
  | .cgt => a > b
  | .cge => a ≥ b

/-- String comparison for the predicate grammar; order comparisons on
strings are rejected (false), only equality tests are meaningful. -/
def cmpStr (op : CmpOp) (a b : String) : Bool :=
  match op with
  | .ceq => a = b
  | .cne => a ≠ b
  | _ => false

/-- Modelled from the spec: predicate evaluation against one row.  A
missing column or a type mismatch with the literal makes the comparison
false. -/
def evalPred : Pred → Row → Bool
  | .cmp c op (.li n), r =>
      match rowGet r c with
      | some (.int i) => cmpInt op i n
      | _ => false
  | .cmp c op (.ls s), r =>
      match rowGet r c with
      | some (.str t) => cmpStr op t s
      | _ => false
  | .pand p q, r => evalPred p r && evalPred q r
  | .por p q, r => evalPred p r || evalPred q r

/-- Parses one comparison operator token of the filter query string. -/
def parseOp (t : String) : Option CmpOp :=
  if t = "==" then some .ceq
  else if t = "!=" then some .cne
  else if t = "<" then some .clt
  else if t = "<=" then some .cle
  else if t = ">" then some .cgt
  else if t = ">=" then some .cge
  else none

/-- Parses a literal token: an integer when it reads as one, otherwise
a bare string literal. -/
def parseLit (t : String) : Lit :=
  match t.toInt? with
  | some n => .li n
  | none => .ls t

/-- Parses one column-operator-literal comparison. -/
def parseCmp (c o l : String) : Option Pred :=
  (parseOp o).map (fun op => .cmp c op (parseLit l))

/-- Folds the remaining AND and OR conjuncts of a filter query, left
associatively. -/
def parsePredAux : Pred → List String → Option Pred
  | acc, [] => some acc
  | acc, conj :: c :: o :: l :: rest =>
      match parseCmp c o l with
      | none => none
      | some p =>
          if conj = "AND" then parsePredAux (.pand acc p) rest
          else if conj = "OR" then parsePredAux (.por acc p) rest
          else none
  | _, _ :: _ => none

/-- Modelled from the spec: the filter query string of the data
endpoints, read with the closed grammar of section 4.1 — whitespace
separated tokens, comparisons joined by AND and OR. -/
def parsePred (s : String) : Option Pred :=
  match (s.splitOn " ").filter (fun t => t ≠ "") with
  | c :: o :: l :: rest =>
      match parseCmp c o l with
      | none => none
      | some p => parsePredAux p rest
  | _ => none

/-- The in-memory registry of datasets, keyed by id. -/
def TabularStore : Type := List (String × Dataset)

instance : DecidableEq TabularStore := by
  unfold TabularStore
  infer_instance

/-- Modelled from the spec: get of TabularStore, id lookup. -/
def storeGet (s : TabularStore) (id : String) : Option Dataset :=
  (s.find? (fun p => p.1 = id)).map (fun p => p.2)

/-- Modelled from the spec: put of TabularStore with replace-by-id
semantics — an existing entry under the same id is replaced. -/
def storePut (s : TabularStore) (ds : Dataset) : TabularStore :=
  s.filter (fun p => p.1 ≠ ds.id) ++ [(ds.id, ds)]

/-- Modelled from the spec: filter of TabularStore — a derived row
subset of the stored dataset, never a mutation; an unknown id is the
NotFound error. -/
def storeFilter (s : TabularStore) (id : String) (p : Pred) :
    Except ErrKind (List Row) :=
  match storeGet s id with
  | none => .error .NotFound
  | some ds => .ok (ds.rows.filter (fun r => evalPred p r))

/-- Modelled from the spec: per-column statistics of describe —
null count, unique count, and min, max, mean over the numeric cells. -/
structure ColStats where
  null_count : Nat
  unique_count : Nat
  minJ : Option Int
  maxJ : Option Int
  meanJ : Option Rat
deriving DecidableEq

/-- Collects the cell values of one column over all rows; a missing
cell reads as null. -/
def colValues (rows : List Row) (c : String) : List Value :=
  rows.map (fun r => (rowGet r c).getD .null)

/-- Integer cells of a value list. -/
def intCells (vs : List Value) : List Int :=
  vs.filterMap (fun v =>
    match v with
    | .int i => some i
    | _ => none)

/-- Modelled from the spec: the statistics of one column. -/
def statsOf (vs : List Value) : ColStats :=
  let ints := intCells vs
  { null_count := (vs.filter (fun v => v = .null)).length
    unique_count := vs.eraseDups.length
    minJ :=
      match ints with
      | [] => none
      | h :: t => some (t.foldl min h)
    maxJ :=
      match ints with
      | [] => none
      | h :: t => some (t.foldl max h)
    meanJ :=
      if ints.length = 0 then none
      else some ((ints.foldl (· + ·) 0 : Int) / (ints.length : Rat)) }

/-- Modelled from the spec: describe of TabularStore — per-column
statistics for the requested columns, defaulting to the full schema. -/
def storeDescribe (s : TabularStore) (id : String)
    (cols : Option (List String)) :
    Except ErrKind (List (String × ColStats)) :=
  match storeGet s id with
  | none => .error .NotFound
  | some ds =>
      let cs := cols.getD (ds.schema.map (fun p => p.1))
      .ok (cs.map (fun c => (c, statsOf (colValues ds.rows c))))

/-- Modelled from the spec: the aggregation functions of the agg
spec. -/
inductive AggFn
  | asum
  | amean
  | acount
  | amin
  | amax
deriving DecidableEq

/-- Result scalar of one aggregation. -/
inductive AggVal
  | ai (n : Int)
  | aq (q : Rat)
  | anull
deriving DecidableEq

/-- Applies one aggregation function to the integer cells of a
column restricted to a row group. -/
def applyAgg (f : AggFn) (rows : List Row) (c : String) : AggVal :=
  let ints := intCells (colValues rows c)
  match f with
  | .acount => .ai ints.length
  | .asum => .ai (ints.foldl (· + ·) 0)
  | .amean =>
      if ints.length = 0 then .anull
      else .aq ((ints.foldl (· + ·) 0 : Int) / (ints.length : Rat))
  | .amin =>
      match ints with
      | [] => .anull
      | h :: t => .ai (t.foldl min h)
  | .amax =>
      match ints with
      | [] => .anull
      | h :: t => .ai (t.foldl max h)

/-- Group key of a row for a group-by column list. -/
def groupKey (gb : List String) (r : Row) : List Value :=
  gb.map (fun c => (rowGet r c).getD .null)

/-- Modelled from the spec: aggregate of TabularStore — group by the
given columns, then apply the agg spec per group; an empty group-by
list forms a single group over the whole dataset. -/
def storeAggregate (s : TabularStore) (id : String) (gb : List String)
    (spec : List (String × AggFn)) :
    Except ErrKind (List (List Value × List (String × AggVal))) :=
  match storeGet s id with
  | none => .error .NotFound
  | some ds =>
      let keys := (ds.rows.map (groupKey gb)).eraseDups
      .ok (keys.map (fun k =>
        let grp := ds.rows.filter (fun r => groupKey gb r = k)
        (k, spec.map (fun p => (p.1, applyAgg p.2 grp p.1)))))

/-- Modelled from the spec: the operations of the TabularStore
contract, as a single operation type so that the state effect of every
operation can be stated uniformly. -/
inductive StoreOp
  | put (ds : Dataset)
  | get (id : String)
  | listOp
  | describe (id : String) (cols : Option (List String))
  | filter (id : String) (p : Pred)
  | aggregate (id : String) (gb : List String)
      (spec : List (String × AggFn))
deriving DecidableEq

instance instDecEqExcept {ε α : Type} [DecidableEq ε] [DecidableEq α] :
    DecidableEq (Except ε α) := fun a b =>
  match a, b with
  | .error x, .error y =>
      if h : x = y then isTrue (congrArg Except.error h)
      else isFalse (fun hh => h (Except.error.inj hh))
  | .error _, .ok _ => isFalse (fun hh => Except.noConfusion hh)
  | .ok _, .error _ => isFalse (fun hh => Except.noConfusion hh)
  | .ok x, .ok y =>
      if h : x = y then isTrue (congrArg Except.ok h)
      else isFalse (fun hh => h (Except.ok.inj hh))

/-- Result of one TabularStore operation. -/
inductive StoreOut
  | putOut (id : String)
  | getOut (o : Option Dataset)
  | listOut (l : List (String × Nat))
  | describeOut (o : Except ErrKind (List (String × ColStats)))
  | filterOut (o : Except ErrKind (List Row))
  | aggregateOut
      (o : Except ErrKind (List (List Value × List (String × AggVal))))
deriving DecidableEq

/-- Modelled from the spec: applies one TabularStore operation to the
store, returning its result together with the store that remains.  put
replaces by id; get, list, describe, filter and aggregate compute
derived views of the stored data. -/
def applyStoreOp : StoreOp → TabularStore →
    StoreOut × TabularStore
  | .put ds, s => (.putOut ds.id, storePut s ds)
  | .get id, s => (.getOut (storeGet s id), s)
  | .listOp, s =>
      (.listOut (s.map (fun p => (p.2.name, p.2.rows.length))), s)
  | .describe id cols, s => (.describeOut (storeDescribe s id cols), s)
  | .filter id p, s => (.filterOut (storeFilter s id p), s)
  | .aggregate id gb spec, s =>
      (.aggregateOut (storeAggregate s id gb spec), s)

/-- Read operations of the store: everything except put. -/
def StoreOp.isRead : StoreOp → Bool
  | .put _ => false
  | _ => true

/-! ## Sandbox (spec section 4.2; the backend sandbox service is not in
the shipped sources, so the component is modelled from the spec).  The
snippet is modelled as an abstract syntax tree over the allow-listed
surface: expressions over the one bound dataframe, print, return, a
sequential composition and a bounded repetition.  The language has no
construct for imports, filesystem access, network access or host state,
which is the namespace restriction of the spec.  Wall-clock time is
modelled as interpreter fuel: every statement node consumes one unit,
and the time budget is the initial fuel. -/

/-- Modelled from the spec: allow-listed snippet expressions over the
bound dataframe — numeric literals, column aggregations, addition. -/
inductive SExpr
  | lit (n : Int)
  | colSum (c : String)
  | colCount (c : String)
  | colMin (c : String)
  | colMax (c : String)
  | add (a b : SExpr)
deriving DecidableEq

/-- Modelled from the spec: allow-listed snippet statements — print,
return, sequencing and bounded repetition. -/
inductive Stmt
  | print (e : SExpr)
  | ret (e : SExpr)
  | seq (a b : Stmt)
  | rep (n : Nat) (body : Stmt)
deriving DecidableEq

/-- Integer cells of one column of the bound dataset. -/
def dsInts (ds : Dataset) (c : String) : List Int :=
  intCells (colValues ds.rows c)

/-- Modelled from the spec: snippet expression evaluation against the
one bound dataframe; aggregations of an empty column read as zero. -/
def evalExpr (ds : Dataset) : SExpr → Int
  | .lit n => n
  | .colSum c => (dsInts ds c).foldl (· + ·) 0
  | .colCount c => (dsInts ds c).length
  | .colMin c =>
      match dsInts ds c with
      | [] => 0
      | h :: t => t.foldl min h
  | .colMax c =>
      match dsInts ds c with
      | [] => 0
      | h :: t => t.foldl max h
  | .add a b => evalExpr ds a + evalExpr ds b

/-- Cost of a snippet in interpreter steps: one unit per executed
statement node. -/
def cost : Stmt → Nat
  | .print _ => 1
  | .ret _ => 1
  | .seq a b => 1 + cost a + cost b
  | .rep n body => 1 + n * cost body

/-- Interpreter state: remaining fuel, timeout flag, captured print
lines and the returned value. -/
structure ExecSt where
  fuel : Nat
  timedOut : Bool
  output : List String
  retVal : Option Int
deriving DecidableEq

/-- Charges one unit of interpreter fuel: a raised timeout flag
absorbs, exhausted fuel raises the flag, otherwise the continuation
runs with one unit less. -/
def charge (st : ExecSt) (k : Nat → ExecSt) : ExecSt :=
  if st.timedOut then st
  else
    match st.fuel with
    | 0 => { st with timedOut := true }
    | f + 1 => k f

/-- Iterates an interpreter step a bounded number of times. -/
def runRepAux (g : ExecSt → ExecSt) : Nat → ExecSt → ExecSt
  | 0, st => st
  | m + 1, st => runRepAux g m (g st)

/-- Modelled from the spec: the sandbox interpreter.  Every statement
node charges one unit of fuel; running out of fuel raises the timeout
flag, which absorbs the rest of the program — the bound on wall-clock
time is owned by the interpreter, not by the snippet. -/
def runStmt (env : Dataset) : Stmt → ExecSt → ExecSt
  | .print e, st =>
      charge st (fun f =>
        { st with
            fuel := f
            output := st.output ++ [toString (evalExpr env e)] })
  | .ret e, st =>
      charge st (fun f =>
        { st with fuel := f, retVal := some (evalExpr env e) })
  | .seq a b, st =>
      charge st (fun f => runStmt env b (runStmt env a { st with fuel := f }))
  | .rep n body, st =>
      charge st (fun f =>
        runRepAux (fun st2 => runStmt env body st2) n { st with fuel := f })

/-- Modelled from the spec: the SandboxExecutionRequest record — the id
of the one bound dataset and the snippet.  The snippet text is carried
as its abstract syntax. -/
structure SandboxExecutionRequest where
  dataset_id : String
  code : Stmt
deriving DecidableEq

/-- Modelled from the spec: the SandboxExecutionResult record.  All
payload fields are serialized strings, never references into the
caller. -/
structure SandboxExecutionResult where
  ok : Bool
  stdout_text : Option String
  return_summary : Option String
  error_kind : Option ErrKind
  error_message : Option String
deriving DecidableEq

/-- Modelled from the spec: the host process state visible around the
sandbox — the shared dataset store and, abstractly, filesystem,
network and other host memory.  The snippet language has no construct
touching any of these. -/
structure HostState where
  store : TabularStore
  fsFiles : List (String × String)
  netLog : List String
  hostMem : List (String × Value)
deriving DecidableEq

/-- Runs a snippet against its bound dataset under a fuel budget and
normalizes the outcome into a SandboxExecutionResult. -/
def sandboxCore (ds : Dataset) (code : Stmt) (budget : Nat) :
    SandboxExecutionResult :=
  let fin := runStmt ds code
    { fuel := budget, timedOut := false, output := [], retVal := none }
  if fin.timedOut then
    { ok := false
      stdout_text := none
      return_summary := none
      error_kind := some .Timeout
      error_message := some "time budget exceeded" }
  else
    { ok := true
      stdout_text := some (String.intercalate ", " fin.output)
      return_summary := fin.retVal.map toString
      error_kind := none
      error_message := none }

/-- Modelled from the spec: execute of the Sandbox.  The bound dataset
is looked up in the host store; the interpreter then runs against that
dataset alone, and the host state is returned untouched — the sandbox
writes nothing back into the host. -/
def Sandbox.execute (req : SandboxExecutionRequest) (budget : Nat)
    (h : HostState) : SandboxExecutionResult × HostState :=
  match storeGet h.store req.dataset_id with
  | none =>
      ({ ok := false
         stdout_text := none
         return_summary := none
         error_kind := some .NotFound
         error_message := some "dataset not found" }, h)
  | some ds => (sandboxCore ds req.code budget, h)

/-- Parses one snippet expression from its whitespace tokens; an
unrecognized head token is reported as a disallowed name. -/
def parseExprT : List String → Except String SExpr
  | ["lit", n] =>
      match n.toInt? with
      | some i => .ok (.lit i)
      | none => .error n
  | ["sum", c] => .ok (.colSum c)
  | ["count", c] => .ok (.colCount c)
  | ["min", c] => .ok (.colMin c)
  | ["max", c] => .ok (.colMax c)
  | w :: _ => .error w
  | [] => .error "empty"

/-- Parses one snippet line; an unrecognized head token is reported as
a disallowed name — stray imports and any other name outside the
allow-list fail here. -/
def parseLine (l : String) : Except String Stmt :=
  match (l.splitOn " ").filter (fun t => t ≠ "") with
  | "print" :: rest => (parseExprT rest).map .print
  | "ret" :: rest => (parseExprT rest).map .ret
  | w :: _ => .error w
  | [] => .error "empty"

/-- Modelled from the spec: reads snippet text as semicolon-separated
lines of the allow-listed surface and sequences them. -/
def parseSnippet (code : String) : Except String Stmt :=
  let ls := ((code.splitOn ";").map String.trim).filter (fun t => t ≠ "")
  match ls with
  | [] => .error "empty"
  | l :: rest =>
      rest.foldl
        (fun acc ln =>
          match acc, parseLine ln with
          | .ok a, .ok b => .ok (.seq a b)
          | .error e, _ => .error e
          | _, .error e => .error e)
        (parseLine l)

/-! ## ToolRegistry (spec section 4.3; the backend llm service is not
in the shipped sources, so the component is modelled from the spec). -/

/-- Modelled from the spec: argument values of a tool call, the
JSON-like duck-typed payload produced by the LLM. -/
inductive AVal
  | avStr (s : String)
  | avNum (n : Int)
  | avStrList (l : List String)
  | avPairs (l : List (String × String))
deriving DecidableEq

/-- Argument types of a tool schema. -/
inductive ATy
  | tStr
  | tNum
  | tStrList
  | tPairs
deriving DecidableEq

/-- Type of an argument value. -/
def tyOf : AVal → ATy
  | .avStr _ => .tStr
  | .avNum _ => .tNum
  | .avStrList _ => .tStrList
  | .avPairs _ => .tPairs

/-- Modelled from the spec: one required field of a tool schema — a
name, a type, and optionally an enumeration of admissible string
choices. -/
structure FieldSpec where
  fname : String
  ty : ATy
  choices : Option (List String) := none
deriving DecidableEq

/-- Modelled from the spec: a tool declaration — name and argument
schema.  The natural-language description sent to the LLM plays no role
in dispatch and is omitted. -/
structure ToolSpec where
  name : String
  fields : List FieldSpec
deriving DecidableEq

/-- Modelled from the spec: the exposed tools of section 4.3 with their
required fields; the plot type is the enumerated choice list of the
spec. -/
def registryTools : List ToolSpec :=
  [ ⟨"filter_data",
      [⟨"file_id", .tStr, none⟩, ⟨"predicate", .tStr, none⟩]⟩,
    ⟨"aggregate_data",
      [⟨"file_id", .tStr, none⟩, ⟨"group_by", .tStrList, none⟩,
       ⟨"agg", .tPairs, none⟩]⟩,
    ⟨"describe_data", [⟨"file_id", .tStr, none⟩]⟩,
    ⟨"generate_plot",
      [⟨"file_id", .tStr, none⟩,
       ⟨"plot_type", .tStr,
         some ["bar", "pie", "scatter", "line", "histogram", "box"]⟩,
       ⟨"x", .tStr, none⟩, ⟨"y", .tStr, none⟩]⟩,
    ⟨"search_documents",
      [⟨"query", .tStr, none⟩, ⟨"top_k", .tNum, none⟩]⟩,
    ⟨"run_code",
      [⟨"file_id", .tStr, none⟩, ⟨"code", .tStr, none⟩]⟩ ]

/-- Modelled from the spec: the ToolCall record of section 3. -/
structure ToolCall where
  name : String
  arguments : List (String × AVal)
  call_id : String
deriving DecidableEq

/-- Looks an argument up by field name. -/
def lookupArg (args : List (String × AVal)) (k : String) :
    Option AVal :=
  (args.find? (fun p => p.1 = k)).map (fun p => p.2)

/-- Modelled from the spec: schema validation of tool-call arguments —
the first required field that is missing, has the wrong type, or falls
outside its enumerated choices is reported by name. -/
def validateArgs (fields : List FieldSpec)
    (args : List (String × AVal)) : Option String :=
  fields.findSome? fun f =>
    match lookupArg args f.fname with
    | none => some f.fname
    | some v =>
        if tyOf v ≠ f.ty then some f.fname
        else
          match f.choices, v with
          | some cs, .avStr s => if s ∈ cs then none else some f.fname
          | some _, _ => some f.fname
          | none, _ => none

/-- Payload of a tool result, one of the bounded shapes of the spec. -/
inductive Payload
  | textP (s : String)
  | tableP (cols : List String) (rows : List Row)
  | statsP (l : List (String × ColStats))
  | aggP (l : List (List Value × List (String × AggVal)))
  | plotP (ty x y : String)
  | searchP (l : List (String × String × Nat))
  | emptyP
deriving DecidableEq

/-- Modelled from the spec: the ToolResult record of section 3, with
the offending detail carried in the error message. -/
structure ToolResult where
  call_id : String
  ok : Bool
  payload : Payload
  error_kind : Option ErrKind := none
  error_message : Option String := none
deriving DecidableEq

/-- Builds an error ToolResult. -/
def errRes (cid : String) (k : ErrKind) (m : String) : ToolResult :=
  { call_id := cid
    ok := false
    payload := .emptyP
    error_kind := some k
    error_message := some m }

/-- Builds a success ToolResult. -/
def okRes (cid : String) (p : Payload) : ToolResult :=
  { call_id := cid, ok := true, payload := p }

/-- Modelled from the spec: a DocumentChunk held by the KnowledgeBase;
the embedding vector is abstracted away, search is scored by word
overlap. -/
structure DocChunk where
  doc_id : String
  chunk_id : String
  text : String
  source_name : String
deriving DecidableEq

/-- The KnowledgeBase is a list of indexed chunks. -/
def KnowledgeBase : Type := List DocChunk

instance : DecidableEq KnowledgeBase := by
  unfold KnowledgeBase
  infer_instance

/-- Word-overlap score between a query and a chunk text. -/
def overlapScore (q t : String) : Nat :=
  (((q.splitOn " ").filter (fun w => w ≠ "")).filter
    (fun w => (t.splitOn " ").contains w)).length

/-- Modelled from the spec: search of the KnowledgeBase — chunks paired
with scores, best first, cut to the requested count.  An empty base
yields an empty ranked list, not an error. -/
def searchDocs (kb : KnowledgeBase) (q : String) (k : Nat) :
    List (String × String × Nat) :=
  ((kb.map (fun c => (c.text, c.source_name, overlapScore q c.text))).mergeSort
    (fun a b => b.2.2 ≤ a.2.2)).take k

/-- Tools whose arguments reference a dataset in the TabularStore. -/
def datasetTools : List String :=
  ["filter_data", "aggregate_data", "describe_data", "generate_plot",
   "run_code"]

/-- Reads a string argument, defaulting to the empty string; dispatch
only uses it after validation has established presence and type. -/
def getStrArg (args : List (String × AVal)) (k : String) : String :=
  match lookupArg args k with
  | some (.avStr s) => s
  | _ => ""

/-- Reads a numeric argument, defaulting to zero. -/
def getNumArg (args : List (String × AVal)) (k : String) : Int :=
  match lookupArg args k with
  | some (.avNum n) => n
  | _ => 0

/-- Reads a string-list argument, defaulting to the empty list. -/
def getStrListArg (args : List (String × AVal)) (k : String) :
    List String :=
  match lookupArg args k with
  | some (.avStrList l) => l
  | _ => []

/-- Reads a pair-list argument, defaulting to the empty list. -/
def getPairsArg (args : List (String × AVal)) (k : String) :
    List (String × String) :=
  match lookupArg args k with
  | some (.avPairs l) => l
  | _ => []

/-- Reads one aggregation function name of the agg spec. -/
def parseAggFn (s : String) : Option AggFn :=
  if s = "sum" then some .asum
  else if s = "mean" then some .amean
  else if s = "count" then some .acount
  else if s = "min" then some .amin
  else if s = "max" then some .amax
  else none

/-- Preview cap applied to table payloads before they re-enter the
conversation context. -/
def previewCap : Nat := 50

/-- Default sandbox time budget used by the run_code tool. -/
def defaultBudget : Nat := 1000

/-- Executes one dataset-bound tool against its dataset.  Component
errors are mapped to the taxonomy: a malformed predicate or agg spec is
a ValidationError, a disallowed snippet name is a RuntimeFault, a
sandbox timeout stays a Timeout. -/
def runDatasetTool (name : String) (ds : Dataset)
    (args : List (String × AVal)) (cid : String) : ToolResult :=
  if name = "filter_data" then
    match parsePred (getStrArg args "predicate") with
    | none => errRes cid .ValidationError "malformed predicate"
    | some p =>
        okRes cid (.tableP (ds.schema.map (fun q => q.1))
          ((ds.rows.filter (fun r => evalPred p r)).take previewCap))
  else if name = "aggregate_data" then
    let specs := (getPairsArg args "agg").map
      (fun q => (q.1, parseAggFn q.2))
    if specs.any (fun q => q.2 = none) then
      errRes cid .ValidationError "malformed agg spec"
    else
      let spec := specs.filterMap
        (fun q => (q.2).map (fun f => (q.1, f)))
      let keys := (ds.rows.map (groupKey (getStrListArg args "group_by"))).eraseDups
      okRes cid (.aggP (keys.map (fun k =>
        let grp := ds.rows.filter
          (fun r => groupKey (getStrListArg args "group_by") r = k)
        (k, spec.map (fun q => (q.1, applyAgg q.2 grp q.1))))))
  else if name = "describe_data" then
    okRes cid (.statsP ((ds.schema.map (fun q => q.1)).map
      (fun c => (c, statsOf (colValues ds.rows c)))))
  else if name = "generate_plot" then
    okRes cid (.plotP (getStrArg args "plot_type") (getStrArg args "x")
      (getStrArg args "y"))
  else
    match parseSnippet (getStrArg args "code") with
    | .error w => errRes cid .RuntimeFault ("disallowed name: " ++ w)
    | .ok stmt =>
        let r := sandboxCore ds stmt defaultBudget
        if r.ok then
          okRes cid (.textP ((r.stdout_text.getD "") ++
            (r.return_summary.getD "")))
        else
          errRes cid (r.error_kind.getD .RuntimeFault)
            ((r.error_message).getD "sandbox failure")

/-- Executes a validated tool call: dataset-bound tools resolve their
dataset first and fail with NotFound when it is absent; document search
runs against the KnowledgeBase. -/
def execTool (name : String) (args : List (String × AVal))
    (store : TabularStore) (kb : KnowledgeBase) (cid : String) :
    ToolResult :=
  if datasetTools.contains name then
    match storeGet store (getStrArg args "file_id") with
    | none =>
        errRes cid .NotFound
          ("dataset not found: " ++ getStrArg args "file_id")
    | some ds => runDatasetTool name ds args cid
  else
    okRes cid (.searchP (searchDocs kb (getStrArg args "query")
      (getNumArg args "top_k").toNat))

/-- Modelled from the spec: dispatch of the ToolRegistry — look the
tool up by name (unknown name is UnknownTool), validate the arguments
against its schema (failure is ValidationError naming the offending
field), then execute against TabularStore, Sandbox or KnowledgeBase.
dispatch is a total function: every failure becomes a classified
ToolResult. -/
def dispatch (call : ToolCall) (store : TabularStore)
    (kb : KnowledgeBase) : ToolResult :=
  match registryTools.find? (fun t => t.name = call.name) with
  | none => errRes call.call_id .UnknownTool "unknown tool"
  | some spec =>
      match validateArgs spec.fields call.arguments with
      | some f =>
          errRes call.call_id .ValidationError
            ("invalid or missing field: " ++ f)
      | none => execTool call.name call.arguments store kb call.call_id

/-! ## ConversationSession and Orchestrator (spec sections 3 and 4.4;
the backend chat service is not in the shipped sources, so both are
modelled from the spec). -/

/-- Modelled from the spec: the role of a ConversationTurn — user,
assistant or tool. -/
inductive Role
  | user
  | assistant
  | tool
deriving DecidableEq

/-- Modelled from the spec: the ConversationTurn record of section 3 —
role, content, optional plot and table attachments. -/
structure ConversationTurn where
  role : Role
  content : String
  plot : Option String := none
  tableAtt : Option (List Row) := none
deriving DecidableEq

/-- Maps a frontend ChatMessage role into the session role set. -/
def roleOfChat : ChatRole → Role
  | .user => .user
  | .assistant => .assistant

/-- Modelled from the spec: the operations that touch the turn sequence
of a ConversationSession — appending one turn, or the explicit session
reset. -/
inductive SessionOp
  | append (t : ConversationTurn)
  | clear
deriving DecidableEq

/-- Modelled from the spec: applies one session operation to the held
turn sequence; append extends at the end, clear empties it. -/
def applySessionOp : SessionOp → List ConversationTurn →
    List ConversationTurn
  | .append t, hist => hist ++ [t]
  | .clear, _ => []

/-- Modelled from the spec: the response of the LLM transport — final
text, or one or more tool calls. -/
structure LLMResponse where
  text : String
  tool_calls : List ToolCall
deriving DecidableEq

/-- Renders a ToolResult as the content of a tool observation turn. -/
def obsContent (tr : ToolResult) : String :=
  if tr.ok then "ok:" ++ tr.call_id
  else "error:" ++ tr.call_id ++ ":" ++ ((tr.error_message).getD "")

/-- The observation turn appended for one dispatched tool call. -/
def obsTurn (tr : ToolResult) : ConversationTurn :=
  { role := .tool, content := obsContent tr }

/-- The assistant turn recording one model response. -/
def assistantTurn (resp : LLMResponse) : ConversationTurn :=
  { role := .assistant, content := resp.text }

/-- Modelled from the spec: the outcome of one user turn of the
Orchestrator state machine — the number of ModelTurn to ToolDispatch
round-trips taken, the StepLimitExceeded flag, and the answer text. -/
structure TurnOutcome where
  rounds : Nat
  stepLimitExceeded : Bool
  answer : String
deriving DecidableEq

/-- Modelled from the spec: the ModelTurn and ToolDispatch cycle of
section 4.4.  Each iteration asks the transport for a response; no tool
calls means FinalAnswer with that text; tool calls with remaining
budget are dispatched in emission order through the ToolRegistry, the
observations are appended, and the cycle re-enters ModelTurn; tool
calls with the budget exhausted force FinalAnswer with the
StepLimitExceeded flag and a best-effort summary. -/
def orchLoop (model : List ConversationTurn → LLMResponse)
    (store : TabularStore) (kb : KnowledgeBase) :
    Nat → List ConversationTurn → TurnOutcome
  | 0, hist =>
      let resp := model hist
      match resp.tool_calls with
      | [] =>
          { rounds := 0, stepLimitExceeded := false, answer := resp.text }
      | _ :: _ =>
          { rounds := 0
            stepLimitExceeded := true
            answer := "Step limit reached before a final answer." }
  | r + 1, hist =>
      let resp := model hist
      match resp.tool_calls with
      | [] =>
          { rounds := 0, stepLimitExceeded := false, answer := resp.text }
      | c :: cs =>
          let obs := (c :: cs).map (fun tc => obsTurn (dispatch tc store kb))
          let out := orchLoop model store kb r
            (hist ++ [assistantTurn resp] ++ obs)
          { rounds := out.rounds + 1
            stepLimitExceeded := out.stepLimitExceeded
            answer := out.answer }

/-- Modelled from the spec: handle_message of the Orchestrator — the
user message is appended to the session history and the bounded
ModelTurn cycle runs with the configured maximum number of tool
round-trips. -/
def handleMessage (model : List ConversationTurn → LLMResponse)
    (store : TabularStore) (kb : KnowledgeBase) (maxSteps : Nat)
    (hist : List ConversationTurn) (text : String) : TurnOutcome :=
  orchLoop model store kb maxSteps
    (applySessionOp (.append { role := .user, content := text }) hist)

/-! ## Sample values used by concrete witnesses -/

/-- A sample uploaded file record. -/
def sampleFile1 : UploadedFileInfo :=
  { file_id := "f1"
    filename := "a.csv"
    columns := ["age"]
    column_info := []
    row_count := 3
    preview := [] }

/-- A second sample uploaded file record with a distinct id. -/
def sampleFile2 : UploadedFileInfo :=
  { file_id := "f2"
    filename := "b.csv"
    columns := ["gene_A"]
    column_info := []
    row_count := 2
    preview := [] }

/-! ## Claims about the frontend sources -/

/-- C10: for every non-empty dataset list the top bar shows Active
followed by the filename of the last element — which handleDataUpload
makes the most recently uploaded or re-uploaded dataset — and for the
empty list it shows the no-dataset text. -/
theorem active_label_spec :
    activeLabel [] = "No dataset loaded" ∧
    (∀ (l : List UploadedFileInfo) (d : UploadedFileInfo),
      l.getLast? = some d → activeLabel l = "Active: " ++ d.filename) ∧
    (∀ (data : UploadDataResponse) (prev : List UploadedFileInfo)
      (f : UploadedFileInfo), data.files.getLast? = some f →
      activeLabel (handleDataUpload data prev) =
        "Active: " ++ f.filename) := by
  have hlast : ∀ (l : List UploadedFileInfo) (d : UploadedFileInfo),
      l.getLast? = some d → activeLabel l = "Active: " ++ d.filename := by
    intro l d hd
    obtain ⟨ys, rfl⟩ := List.getLast?_eq_some_iff.mp hd
    unfold activeLabel
    rw [if_pos (by simp)]
    rw [List.get?_eq_getElem?]
    rw [show (ys ++ [d]).length - 1 = ys.length by simp]
    rw [show (ys ++ [d])[ys.length]? = some d by
      simp [List.getElem?_append_right]]
    rfl
  refine ⟨rfl, hlast, ?_⟩
  intro data prev f hf
  apply hlast
  unfold handleDataUpload
  rw [List.getLast?_append, hf]
  rfl

/-- Witness for C10 at concrete inputs. -/
theorem active_label_spec_witness :
    [sampleFile2, sampleFile1].getLast? = some sampleFile1 ∧
    activeLabel [sampleFile2, sampleFile1] = "Active: " ++ "a.csv" := by
  refine ⟨rfl, ?_⟩
  exact active_label_spec.2.1 [sampleFile2, sampleFile1] sampleFile1 rfl

/-- Counterexample for C9 as stated: an upload response that repeats
one file_id makes the resulting list carry that id twice although the
previous list (empty) had unique ids. -/
theorem upload_dedup_cex :
    (([] : List UploadedFileInfo).map (fun d => d.file_id)).Nodup ∧
    ¬ ((handleDataUpload ⟨[sampleFile1, sampleFile1], "csv", 2⟩ []).map
        (fun d => d.file_id)).Nodup := by
  constructor
  · simp
  · decide

/-- C9 amended: the resulting dataset list has unique file_ids provided
the previous list had unique file_ids and the file_ids within the
upload response are themselves pairwise distinct; entries of the
previous list whose file_id occurs in the response are removed before
the response files are appended. -/
theorem upload_dedup_unique (data : UploadDataResponse)
    (prev : List UploadedFileInfo)
    (h1 : (prev.map (fun d => d.file_id)).Nodup)
    (h2 : (data.files.map (fun d => d.file_id)).Nodup) :
    ((handleDataUpload data prev).map (fun d => d.file_id)).Nodup := by
  have hdef : handleDataUpload data prev =
      prev.filter (fun d =>
        !((data.files.map (fun f => f.file_id)).contains d.file_id)) ++
      data.files := rfl
  rw [hdef, List.map_append, List.nodup_append]
  refine ⟨?_, h2, ?_⟩
  · exact ((List.filter_sublist prev).map (fun d => d.file_id)).nodup h1
  · intro x hx hx2
    obtain ⟨d, hd, rfl⟩ := List.mem_map.mp hx
    have hdf := List.mem_filter.mp hd
    have hnc : d.file_id ∉ data.files.map (fun f => f.file_id) := by
      simpa using hdf.2
    exact hnc hx2

/-- Witness for C9 at concrete inputs. -/
theorem upload_dedup_unique_witness :
    (([sampleFile2].map (fun d => d.file_id)).Nodup ∧
      (([sampleFile1].map (fun d => d.file_id)).Nodup)) ∧
    ((handleDataUpload ⟨[sampleFile1], "csv", 1⟩ [sampleFile2]).map
      (fun d => d.file_id)).Nodup := by
  refine ⟨⟨by decide, by decide⟩, ?_⟩
  exact upload_dedup_unique ⟨[sampleFile1], "csv", 1⟩ [sampleFile2]
    (by decide) (by decide)

/-- Counterexample for C8 as stated: a thrown value that is neither an
object with a response key nor an Error instance produces the generic
text Upload failed, which is none of the three message forms listed by
the claim. -/
theorem upload_error_cex :
    uploadErrorMessage .other = "Upload failed" ∧
    claimedMessageForm .other "Upload failed" = false :=
  ⟨rfl, rfl⟩

/-- C8 amended: for every failed upload the handler stores a message
that is the server detail string, a server-status description, the own
message of the error, or the generic Upload failed fallback — never an
uncaught value escaping onDrop — and clears the loading flag. -/
theorem upload_error_descriptive (files : List String) (e : UploadErr)
    (hf : files ≠ []) :
    (onDropResult files (.failure e)).error =
      some (uploadErrorMessage e) ∧
    (claimedMessageForm e (uploadErrorMessage e) = true ∨
      uploadErrorMessage e = "Upload failed") ∧
    (onDropResult files (.failure e)).loading = false := by
  match files with
  | [] => exact absurd rfl hf
  | f :: fs =>
      refine ⟨rfl, ?_, rfl⟩
      match e with
      | .axios (some d) st =>
          by_cases hd : d = ""
          · left
            simp [uploadErrorMessage, claimedMessageForm, hd]
          · left
            simp [uploadErrorMessage, claimedMessageForm, hd]
      | .axios none st => left; simp [uploadErrorMessage, claimedMessageForm]
      | .jsError m => left; simp [uploadErrorMessage, claimedMessageForm]
      | .other => right; rfl

/-- Witness for C8 at concrete inputs. -/
theorem upload_error_descriptive_witness :
    (["a.csv"] : List String) ≠ [] ∧
    (onDropResult ["a.csv"]
        (.failure (.axios (some "bad header row") (some 400)))).error =
      some "bad header row" := by
  refine ⟨by decide, ?_⟩
  exact (upload_error_descriptive ["a.csv"]
    (.axios (some "bad header row") (some 400)) (by decide)).1

/-- The concrete scenario dataset of the spec, integer column age. -/
def ds1 : Dataset :=
  { id := "d1"
    name := "ds1"
    schema := [("age", "int")]
    rows := [[("age", .int 30)], [("age", .int 50)], [("age", .int 70)]] }

/-- A store holding only the scenario dataset. -/
def store1 : TabularStore := [("d1", ds1)]

/-- A host state around the sandbox with distinctive filesystem,
network and host-memory content. -/
def host1 : HostState :=
  { store := store1
    fsFiles := [("secret.txt", "k")]
    netLog := ["ping"]
    hostMem := [("token", .str "t")] }

/-- A host state sharing the bound dataset with host1 but differing in
every other component. -/
def host2 : HostState :=
  { store := store1
    fsFiles := []
    netLog := []
    hostMem := [] }

/-- A sandbox request printing one column aggregate of the scenario
dataset. -/
def reqPrint : SandboxExecutionRequest :=
  { dataset_id := "d1", code := .print (.colSum "age") }

/-! ## Claims about the spec-modelled backend core -/

/-- C7: every turn role is drawn from exactly the set user, assistant,
tool; the frontend chat roles map into that set; the turn sequence is
append-only under every operation other than the explicit reset, and
the reset clears it. -/
theorem session_turn_invariants :
    (∀ r : Role, r = .user ∨ r = .assistant ∨ r = .tool) ∧
    (∀ m : ChatRole, roleOfChat m = .user ∨ roleOfChat m = .assistant) ∧
    (∀ (op : SessionOp) (hist : List ConversationTurn),
      op ≠ .clear → ∃ t, applySessionOp op hist = hist ++ [t]) ∧
    (∀ hist : List ConversationTurn, applySessionOp .clear hist = []) := by
  refine ⟨?_, ?_, ?_, fun _ => rfl⟩
  · intro r; cases r
    · exact Or.inl rfl
    · exact Or.inr (Or.inl rfl)
    · exact Or.inr (Or.inr rfl)
  · intro m; cases m
    · exact Or.inl rfl
    · exact Or.inr rfl
  · intro op hist hop
    cases op with
    | append t => exact ⟨t, rfl⟩
    | clear => exact absurd rfl hop

/-- Witness for C7 at concrete inputs. -/
theorem session_turn_invariants_witness :
    (SessionOp.append { role := .user, content := "hello" } ≠
      SessionOp.clear) ∧
    ∃ t, applySessionOp (.append { role := .user, content := "hello" })
      [] = [] ++ [t] := by
  refine ⟨by simp, ?_⟩
  exact session_turn_invariants.2.2.1
    (.append { role := .user, content := "hello" }) [] (by simp)

/-- C6: every read operation of the TabularStore — get, list, describe,
filter, aggregate — leaves the store exactly as it was; only put
changes it. -/
theorem store_reads_pure (op : StoreOp) (s : TabularStore)
    (h : op.isRead = true) : (applyStoreOp op s).2 = s := by
  cases op with
  | put ds => simp [StoreOp.isRead] at h
  | get id => rfl
  | listOp => rfl
  | describe id cols => rfl
  | filter id p => rfl
  | aggregate id gb spec => rfl

/-- Witness for C6 at concrete inputs. -/
theorem store_reads_pure_witness :
    (StoreOp.filter "d1" (.cmp "age" .cgt (.li 40))).isRead = true ∧
    (applyStoreOp (.filter "d1" (.cmp "age" .cgt (.li 40))) store1).2 =
      store1 := by
  refine ⟨rfl, ?_⟩
  exact store_reads_pure (.filter "d1" (.cmp "age" .cgt (.li 40)))
    store1 rfl

/-- C5: every successful filter yields rows that all come from the
stored dataset and all satisfy the predicate, and the result depends
only on the stored dataset under that id — re-running against an
unchanged dataset returns the same rows. -/
theorem store_filter_sound (s : TabularStore) (id : String) (p : Pred)
    (rows : List Row) (h : storeFilter s id p = .ok rows) :
    (∃ ds, storeGet s id = some ds ∧ rows ⊆ ds.rows ∧
      ∀ r ∈ rows, evalPred p r = true) ∧
    (∀ s' : TabularStore, storeGet s' id = storeGet s id →
      storeFilter s' id p = .ok rows) := by
  unfold storeFilter at h
  cases hg : storeGet s id with
  | none => rw [hg] at h; cases h
  | some ds =>
      rw [hg] at h
      have hrows : rows = ds.rows.filter (fun r => evalPred p r) :=
        (Except.ok.inj h).symm
      constructor
      · refine ⟨ds, rfl, ?_, ?_⟩
        · rw [hrows]
          intro r hr
          exact List.mem_of_mem_filter hr
        · intro r hr
          rw [hrows] at hr
          exact (List.mem_filter.mp hr).2
      · intro s' hs
        unfold storeFilter
        rw [hs, hrows]

/-- Witness for C5 at the concrete scenario dataset of the spec. -/
theorem store_filter_sound_witness :
    storeFilter store1 "d1" (.cmp "age" .cgt (.li 40)) =
      .ok [[("age", .int 50)], [("age", .int 70)]] ∧
    ∃ ds, storeGet store1 "d1" = some ds ∧
      ([[("age", Value.int 50)], [("age", Value.int 70)]] :
        List Row) ⊆ ds.rows ∧
      ∀ r ∈ ([[("age", Value.int 50)], [("age", Value.int 70)]] :
        List Row), evalPred (.cmp "age" .cgt (.li 40)) r = true := by
  have h : storeFilter store1 "d1" (.cmp "age" .cgt (.li 40)) =
      .ok [[("age", .int 50)], [("age", .int 70)]] := rfl
  exact ⟨h, (store_filter_sound store1 "d1" (.cmp "age" .cgt (.li 40))
    [[("age", .int 50)], [("age", .int 70)]] h).1⟩

/-- C3: sandbox executions write nothing back into the host — the host
state, including every other dataset, the filesystem model, the network
model and the remaining host memory, is returned untouched — and the
result depends only on the one dataset bound to the request, so a
snippet can read nothing else either. -/
theorem sandbox_isolation (req : SandboxExecutionRequest) (budget : Nat)
    (h : HostState) :
    (Sandbox.execute req budget h).2 = h ∧
    (∀ h' : HostState,
      storeGet h'.store req.dataset_id = storeGet h.store req.dataset_id →
      (Sandbox.execute req budget h').1 = (Sandbox.execute req budget h).1) := by
  constructor
  · unfold Sandbox.execute
    cases storeGet h.store req.dataset_id with
    | none => rfl
    | some ds => rfl
  · intro h' he
    unfold Sandbox.execute
    rw [he]
    cases storeGet h.store req.dataset_id with
    | none => rfl
    | some ds => rfl

/-- Witness for C3 at concrete inputs: two host states sharing the
bound dataset but differing in every other component give identical
sandbox results, and neither is modified. -/
theorem sandbox_isolation_witness :
    (Sandbox.execute reqPrint 9 host1).2 = host1 ∧
    (Sandbox.execute reqPrint 9 host2).1 =
      (Sandbox.execute reqPrint 9 host1).1 := by
  constructor
  · exact (sandbox_isolation reqPrint 9 host1).1
  · exact (sandbox_isolation reqPrint 9 host1).2 host2 rfl

/-- C4: dispatch is a total function that classifies failures — an
unknown tool name yields an UnknownTool error result, arguments
violating the schema yield a ValidationError result naming the
offending field, and a dataset-bound tool whose referenced dataset id
is absent from the TabularStore yields a NotFound result; no path
raises. -/
theorem dispatch_total_classification (call : ToolCall)
    (store : TabularStore) (kb : KnowledgeBase) :
    (registryTools.find? (fun t => t.name = call.name) = none →
      dispatch call store kb =
        errRes call.call_id .UnknownTool "unknown tool") ∧
    (∀ spec f,
      registryTools.find? (fun t => t.name = call.name) = some spec →
      validateArgs spec.fields call.arguments = some f →
      dispatch call store kb = errRes call.call_id .ValidationError
        ("invalid or missing field: " ++ f)) ∧
    (∀ spec,
      registryTools.find? (fun t => t.name = call.name) = some spec →
      validateArgs spec.fields call.arguments = none →
      datasetTools.contains call.name = true →
      storeGet store (getStrArg call.arguments "file_id") = none →
      dispatch call store kb = errRes call.call_id .NotFound
        ("dataset not found: " ++ getStrArg call.arguments "file_id")) := by
  refine ⟨?_, ?_, ?_⟩
  · intro h
    simp only [dispatch, h]
  · intro spec f h1 h2
    simp only [dispatch, h1, h2]
  · intro spec h1 h2 h3 h4
    simp only [dispatch, execTool, h1, h2, h3, h4, if_true]

/-- Witness for C4: three concrete calls, one per classification. -/
theorem dispatch_total_classification_witness :
    dispatch ⟨"no_such_tool", [], "c1"⟩ store1 [] =
      errRes "c1" .UnknownTool "unknown tool" ∧
    dispatch ⟨"filter_data", [("file_id", .avStr "d1")], "c2"⟩ store1 [] =
      errRes "c2" .ValidationError "invalid or missing field: predicate" ∧
    dispatch ⟨"describe_data", [("file_id", .avStr "ghost")], "c3"⟩
      store1 [] =
      errRes "c3" .NotFound "dataset not found: ghost" := by
  refine ⟨?_, ?_, ?_⟩
  · exact (dispatch_total_classification ⟨"no_such_tool", [], "c1"⟩
      store1 []).1 rfl
  · have hfind : registryTools.find?
        (fun t => t.name = (⟨"filter_data", [("file_id", .avStr "d1")],
          "c2"⟩ : ToolCall).name) = some
        ⟨"filter_data",
          [⟨"file_id", .tStr, none⟩, ⟨"predicate", .tStr, none⟩]⟩ := by
      decide
    exact (dispatch_total_classification
      ⟨"filter_data", [("file_id", .avStr "d1")], "c2"⟩ store1 []).2.1
      _ "predicate" hfind (by decide)
  · have hfind : registryTools.find?
        (fun t => t.name = (⟨"describe_data",
          [("file_id", .avStr "ghost")], "c3"⟩ : ToolCall).name) = some
        ⟨"describe_data", [⟨"file_id", .tStr, none⟩]⟩ := by
      decide
    exact (dispatch_total_classification
      ⟨"describe_data", [("file_id", .avStr "ghost")], "c3"⟩ store1
      []).2.2 _ hfind (by decide) (by decide) (by decide)

/-- Every run of the Orchestrator loop takes at most the remaining
number of rounds. -/
theorem orchLoop_rounds_le (model : List ConversationTurn → LLMResponse)
    (store : TabularStore) (kb : KnowledgeBase) :
    ∀ (r : Nat) (hist : List ConversationTurn),
      (orchLoop model store kb r hist).rounds ≤ r := by
  intro r
  induction r with
  | zero =>
      intro hist
      cases hc : (model hist).tool_calls with
      | nil => simp [orchLoop, hc]
      | cons c cs => simp [orchLoop, hc]
  | succ r ih =>
      intro hist
      cases hc : (model hist).tool_calls with
      | nil => simp [orchLoop, hc]
      | cons c cs =>
          simp only [orchLoop, hc]
          exact Nat.succ_le_succ (ih _)

/-- Against a model that emits tool calls on every response, the loop
consumes exactly its budget and reports the exceeded step limit. -/
theorem orchLoop_adversarial
    (model : List ConversationTurn → LLMResponse) (store : TabularStore)
    (kb : KnowledgeBase)
    (hadv : ∀ h : List ConversationTurn, (model h).tool_calls ≠ []) :
    ∀ (r : Nat) (hist : List ConversationTurn),
      (orchLoop model store kb r hist).rounds = r ∧
      (orchLoop model store kb r hist).stepLimitExceeded = true := by
  intro r
  induction r with
  | zero =>
      intro hist
      cases hc : (model hist).tool_calls with
      | nil => exact absurd hc (hadv hist)
      | cons c cs => simp [orchLoop, hc]
  | succ r ih =>
      intro hist
      cases hc : (model hist).tool_calls with
      | nil => exact absurd hc (hadv hist)
      | cons c cs =>
          simp only [orchLoop, hc]
          exact ⟨by rw [(ih _).1], (ih _).2⟩

/-- C1: for every single user turn the count of ModelTurn to
ToolDispatch round-trips never exceeds the configured maximum, and an
adversarial model that emits tool calls on every response is forced
into a FinalAnswer carrying the StepLimitExceeded flag after exactly
the configured number of rounds. -/
theorem orchestrator_step_limit
    (model : List ConversationTurn → LLMResponse) (store : TabularStore)
    (kb : KnowledgeBase) (maxSteps : Nat)
    (hist : List ConversationTurn) (text : String) :
    (handleMessage model store kb maxSteps hist text).rounds ≤ maxSteps ∧
    ((∀ h : List ConversationTurn, (model h).tool_calls ≠ []) →
      (handleMessage model store kb maxSteps hist text).rounds = maxSteps ∧
      (handleMessage model store kb maxSteps hist text).stepLimitExceeded
        = true) := by
  unfold handleMessage
  exact ⟨orchLoop_rounds_le model store kb maxSteps _,
    fun hadv => orchLoop_adversarial model store kb hadv maxSteps _⟩

/-- An adversarial model that answers every history with the same tool
call. -/
def advModel : List ConversationTurn → LLMResponse :=
  fun _ =>
    { text := ""
      tool_calls := [⟨"describe_data", [("file_id", .avStr "d1")], "c1"⟩] }

/-- Witness for C1: against advModel with a step limit of three, the
turn ends after exactly three dispatch rounds with the flag set. -/
theorem orchestrator_step_limit_witness :
    (∀ h : List ConversationTurn, (advModel h).tool_calls ≠ []) ∧
    (handleMessage advModel store1 [] 3 [] "hi").rounds = 3 ∧
    (handleMessage advModel store1 [] 3 [] "hi").stepLimitExceeded
      = true := by
  have hadv : ∀ h : List ConversationTurn, (advModel h).tool_calls ≠ [] :=
    fun _ => by simp [advModel]
  exact ⟨hadv,
    (orchestrator_step_limit advModel store1 [] 3 [] "hi").2 hadv⟩

/-- The charge helper leaves a state whose timeout flag is already
raised untouched. -/
theorem charge_absorb (st : ExecSt) (k : Nat → ExecSt)
    (h : st.timedOut = true) : charge st k = st := by
  simp [charge, h]

/-- Characterization of charge on a live state: exhausted fuel raises
the flag, otherwise the continuation receives the decremented fuel. -/
theorem charge_spec (st : ExecSt) (k : Nat → ExecSt)
    (h : st.timedOut = false) :
    (st.fuel = 0 → charge st k = { st with timedOut := true }) ∧
    (∀ f, st.fuel = f + 1 → charge st k = k f) := by
  constructor
  · intro h0
    simp [charge, h, h0]
  · intro f hf
    simp [charge, h, hf]

/-- A raised timeout flag absorbs every statement. -/
theorem runStmt_absorb (env : Dataset) (s : Stmt) (st : ExecSt)
    (h : st.timedOut = true) : runStmt env s st = st := by
  cases s <;> simp [runStmt, charge_absorb, h]

/-- A raised timeout flag absorbs a bounded repetition whose step
absorbs it. -/
theorem runRepAux_absorb (g : ExecSt → ExecSt)
    (habs : ∀ st : ExecSt, st.timedOut = true → g st = st) :
    ∀ (n : Nat) (st : ExecSt), st.timedOut = true →
      runRepAux g n st = st := by
  intro n
  induction n with
  | zero => intro st h; rfl
  | succ m ih =>
      intro st h
      have hrw : runRepAux g (m + 1) st = runRepAux g m (g st) := rfl
      rw [hrw, habs st h]
      exact ih st h

/-- Fuel accounting for a bounded repetition of a step that itself
accounts for fuel: n iterations of a step of cost c consume n * c fuel
when available and raise the timeout flag when not. -/
theorem runRepAux_fuel (g : ExecSt → ExecSt) (c : Nat)
    (habs : ∀ st : ExecSt, st.timedOut = true → g st = st)
    (hg : ∀ st : ExecSt, st.timedOut = false →
      (c ≤ st.fuel →
        (g st).timedOut = false ∧ (g st).fuel = st.fuel - c) ∧
      (st.fuel < c → (g st).timedOut = true)) :
    ∀ (n : Nat) (st : ExecSt), st.timedOut = false →
      (n * c ≤ st.fuel →
        (runRepAux g n st).timedOut = false ∧
        (runRepAux g n st).fuel = st.fuel - n * c) ∧
      (st.fuel < n * c → (runRepAux g n st).timedOut = true) := by
  intro n
  induction n with
  | zero =>
      intro st h
      constructor
      · intro _
        exact ⟨h, by simp [runRepAux]⟩
      · intro hlt
        simp at hlt
  | succ m ih =>
      intro st h
      have hrw : runRepAux g (m + 1) st = runRepAux g m (g st) := rfl
      rw [hrw]
      set K := m * c with hK
      have hsm : (m + 1) * c = K + c := by rw [hK]; ring
      constructor
      · intro hle
        rw [hsm] at hle
        have hc : c ≤ st.fuel := by omega
        obtain ⟨hto2, hfu2⟩ := (hg st h).1 hc
        obtain ⟨hto3, hfu3⟩ := (ih (g st) hto2).1 (by rw [hfu2]; omega)
        refine ⟨hto3, ?_⟩
        rw [hfu3, hfu2, hsm]
        omega
      · intro hlt
        rw [hsm] at hlt
        by_cases hc : c ≤ st.fuel
        · obtain ⟨hto2, hfu2⟩ := (hg st h).1 hc
          apply (ih (g st) hto2).2
          rw [hfu2]
          omega
        · have hto2 := (hg st h).2 (by omega)
          rw [runRepAux_absorb g habs m (g st) hto2]
          exact hto2

/-- Fuel accounting for the sandbox interpreter: a snippet of a given
cost run on a live state consumes exactly that much fuel when the
budget covers it, and raises the timeout flag exactly when it does
not. -/
theorem runStmt_fuel (env : Dataset) :
    ∀ (s : Stmt) (st : ExecSt), st.timedOut = false →
      (cost s ≤ st.fuel →
        (runStmt env s st).timedOut = false ∧
        (runStmt env s st).fuel = st.fuel - cost s) ∧
      (st.fuel < cost s → (runStmt env s st).timedOut = true) := by
  intro s
  induction s with
  | print e =>
      intro st h
      simp only [runStmt]
      cases hfu : st.fuel with
      | zero =>
          rw [(charge_spec st _ h).1 hfu]
          constructor
          · intro hle
            simp only [cost] at hle
            omega
          · intro _
            simp
      | succ f =>
          rw [(charge_spec st _ h).2 f hfu]
          constructor
          · intro _
            refine ⟨by simp [h], ?_⟩
            simp [cost]
          · intro hlt
            simp only [cost] at hlt
            omega
  | ret e =>
      intro st h
      simp only [runStmt]
      cases hfu : st.fuel with
      | zero =>
          rw [(charge_spec st _ h).1 hfu]
          constructor
          · intro hle
            simp only [cost] at hle
            omega
          · intro _
            simp
      | succ f =>
          rw [(charge_spec st _ h).2 f hfu]
          constructor
          · intro _
            refine ⟨by simp [h], ?_⟩
            simp [cost]
          · intro hlt
            simp only [cost] at hlt
            omega
  | seq a b iha ihb =>
      intro st h
      simp only [runStmt]
      cases hfu : st.fuel with
      | zero =>
          rw [(charge_spec st _ h).1 hfu]
          constructor
          · intro hle
            simp only [cost] at hle
            omega
          · intro _
            simp
      | succ f =>
          rw [(charge_spec st _ h).2 f hfu]
          have h1 : ({ st with fuel := f } : ExecSt).timedOut = false := by
            simp [h]
          constructor
          · intro hle
            simp only [cost] at hle
            have hca : cost a ≤ ({ st with fuel := f } : ExecSt).fuel := by
              simp
              omega
            obtain ⟨hto2, hfu2⟩ := (iha _ h1).1 hca
            have hcb : cost b ≤
                (runStmt env a { st with fuel := f }).fuel := by
              rw [hfu2]
              simp
              omega
            obtain ⟨hto3, hfu3⟩ := (ihb _ hto2).1 hcb
            refine ⟨hto3, ?_⟩
            rw [hfu3, hfu2]
            simp only [cost]
            omega
          · intro hlt
            simp only [cost] at hlt
            by_cases hca : cost a ≤ f
            · obtain ⟨hto2, hfu2⟩ := (iha _ h1).1 (by simp; exact hca)
              apply (ihb _ hto2).2
              rw [hfu2]
              simp
              omega
            · have hto2 := (iha _ h1).2 (by simp; omega)
              rw [runStmt_absorb env b _ hto2]
              exact hto2
  | rep n body ihb =>
      intro st h
      simp only [runStmt]
      cases hfu : st.fuel with
      | zero =>
          rw [(charge_spec st _ h).1 hfu]
          constructor
          · intro hle
            simp only [cost] at hle
            omega
          · intro _
            simp
      | succ f =>
          rw [(charge_spec st _ h).2 f hfu]
          have h1 : ({ st with fuel := f } : ExecSt).timedOut = false := by
            simp [h]
          have hrep := runRepAux_fuel (fun st2 => runStmt env body st2)
            (cost body) (fun st2 hst2 => runStmt_absorb env body st2 hst2)
            (fun st2 hst2 => ihb st2 hst2) n { st with fuel := f } h1
          set K := n * cost body with hK
          constructor
          · intro hle
            simp only [cost] at hle
            rw [← hK] at hle
            obtain ⟨hto2, hfu2⟩ := hrep.1 (by simp; omega)
            refine ⟨hto2, ?_⟩
            rw [hfu2]
            simp only [cost]
            rw [← hK]
            omega
          · intro hlt
            simp only [cost] at hlt
            rw [← hK] at hlt
            apply hrep.2
            simp
            omega

/-- C2: a sandbox execution whose snippet cost exceeds the time budget
returns error_kind Timeout, and only then — within the fuel model the
interpreter never takes more than the budgeted number of steps, and
execute is a total function, so it never hangs. -/
theorem sandbox_timeout_classified (req : SandboxExecutionRequest)
    (budget : Nat) (h : HostState) (ds : Dataset)
    (hds : storeGet h.store req.dataset_id = some ds) :
    ((Sandbox.execute req budget h).1.error_kind = some .Timeout ↔
      budget < cost req.code) ∧
    (budget < cost req.code →
      (Sandbox.execute req budget h).1.ok = false) := by
  have hexec : (Sandbox.execute req budget h).1 =
      sandboxCore ds req.code budget := by
    unfold Sandbox.execute
    rw [hds]
  rw [hexec]
  have hinit : (⟨budget, false, [], none⟩ : ExecSt).timedOut = false := rfl
  have hspec := runStmt_fuel ds req.code ⟨budget, false, [], none⟩ hinit
  unfold sandboxCore
  by_cases hc : cost req.code ≤ budget
  · obtain ⟨hto, _⟩ := hspec.1 hc
    simp [hto]
    omega
  · have hlt : budget < cost req.code := by omega
    have hto := hspec.2 hlt
    simp [hto]
    omega

/-- A snippet of cost three: two sequenced prints. -/
def reqSeq : SandboxExecutionRequest :=
  { dataset_id := "d1", code := .seq (.print (.lit 1)) (.print (.lit 2)) }

/-- Witness for C2: the two-print snippet against a budget of two times
out. -/
theorem sandbox_timeout_classified_witness :
    storeGet host1.store reqSeq.dataset_id = some ds1 ∧
    2 < cost reqSeq.code ∧
    (Sandbox.execute reqSeq 2 host1).1.error_kind = some .Timeout := by
  refine ⟨rfl, by decide, ?_⟩
  exact (sandbox_timeout_classified reqSeq 2 host1 ds1 rfl).1.mpr
    (by decide)

end LabCoPilot
